import Mathlib

/-!
Shallow embedding of the two analyzers of this repository:
`verify_all_workflow_permissions.py` (structural permission classification)
and `check_formatting.py` (line-oriented formatting analysis), together
with proofs of the frozen claims about them.

File contents are modelled as the list of lines returned by the Python
`readlines()` call (each line may keep its trailing newline); a failed
read is modelled as `none`.  Python string primitives (`strip`,
`startswith`, `lower`, `join`, substring containment) are reimplemented
over the character list of the string so that every definition reduces
inside the kernel.
-/

set_option autoImplicit false

namespace WeaverSpec

/-! ## Python string primitives -/

/-- Characters stripped by the Python `str.strip()` default whitespace set:
space, tab, newline, carriage return, vertical tab, form feed. -/
def isPyWhitespace (c : Char) : Bool :=
  c = ' ' || c = '\t' || c = '\n' || c = '\r' || c = Char.ofNat 11 || c = Char.ofNat 12

/-- Python `str.strip()`: drop whitespace from both ends. -/
def pyStrip (s : String) : String :=
  String.mk (((s.data.dropWhile isPyWhitespace).reverse.dropWhile isPyWhitespace).reverse)

/-- Python `s.startswith(pre)`. -/
def pyStartsWith (s pre : String) : Bool :=
  pre.data.isPrefixOf s.data

/-- Python `str.lower()` (ASCII case fold, as used by the markers here). -/
def pyLower (s : String) : String :=
  String.mk (s.data.map Char.toLower)

/-- Python `''.join(lines)`. -/
def pyJoin (l : List String) : String :=
  String.mk (l.foldr (fun s acc => s.data ++ acc) [])

/-- Sublist-of-consecutive-elements test used to model Python `in` on strings. -/
def listContainsSub (needle : List Char) : List Char → Bool
  | [] => needle.isPrefixOf []
  | c :: cs => needle.isPrefixOf (c :: cs) || listContainsSub needle cs

/-- Python `needle in hay` (substring containment). -/
def pyIn (needle hay : String) : Bool :=
  listContainsSub needle.data hay.data

/-! ## YAML data model

A parsed YAML document, as produced by `yaml.safe_load`: nested mappings
(dictionaries with string keys), sequences, strings, integers, booleans
and null.  A mapping is a list of key-value pairs looked up by first match
(Python dictionaries have unique keys, which this representation subsumes). -/

inductive YamlValue where
  | vnull
  | vstr (s : String)
  | vnum (n : Int)
  | vbool (b : Bool)
  | vseq (items : List YamlValue)
  | vmap (entries : List (String × YamlValue))

/-- Python `d.get(key)` / `key in d` on a mapping. -/
def dictGet (key : String) : List (String × YamlValue) → Option YamlValue
  | [] => none
  | (k, v) :: rest => if k = key then some v else dictGet key rest

/-- Python `d.get(key) == s` for a string literal `s` (false when the key is
absent or the value is not a string). -/
def optIsStr (o : Option YamlValue) (s : String) : Bool :=
  match o with
  | some (YamlValue.vstr t) => decide (t = s)
  | _ => false

/-- Python `item == ("contents", "read")` on a mapping item. -/
def pairEqContentsRead : String × YamlValue → Bool
  | (k, YamlValue.vstr v) => decide (k = "contents") && decide (v = "read")
  | _ => false

mutual

/-- Python `str()` rendering of a parsed value, used in warning/error text. -/
def reprYaml : YamlValue → String
  | YamlValue.vnull => "None"
  | YamlValue.vstr s => "\x27" ++ s ++ "\x27"
  | YamlValue.vnum n => toString n
  | YamlValue.vbool b => if b then "True" else "False"
  | YamlValue.vseq l => "[" ++ reprYamlList l ++ "]"
  | YamlValue.vmap l => "\x7b" ++ reprYamlMap l ++ "\x7d"

/-- Comma-separated rendering of a sequence body. -/
def reprYamlList : List YamlValue → String
  | [] => ""
  | [x] => reprYaml x
  | x :: rest => reprYaml x ++ ", " ++ reprYamlList rest

/-- Comma-separated rendering of a mapping body. -/
def reprYamlMap : List (String × YamlValue) → String
  | [] => ""
  | [(k, v)] => "\x27" ++ k ++ "\x27: " ++ reprYaml v
  | (k, v) :: rest => "\x27" ++ k ++ "\x27: " ++ reprYaml v ++ ", " ++ reprYamlMap rest

end

/-- Python `type(v)` rendering for the invalid-format error message. -/
def pyTypeName : YamlValue → String
  | YamlValue.vnull => "<class \x27NoneType\x27>"
  | YamlValue.vstr _ => "<class \x27str\x27>"
  | YamlValue.vnum _ => "<class \x27int\x27>"
  | YamlValue.vbool _ => "<class \x27bool\x27>"
  | YamlValue.vseq _ => "<class \x27list\x27>"
  | YamlValue.vmap _ => "<class \x27dict\x27>"

/-! ## `verify_all_workflow_permissions.py` -/

/-- The fixed marker substrings of `is_auto_generated_file`. -/
def auto_gen_indicators : List String :=
  ["autogenerated", "auto-generated", "automatically generated", "cargo-dist", "DO NOT EDIT"]

/-- `WorkflowPermissionsVerifier.is_auto_generated_file`: join the first 10
lines of the file and scan, case-insensitively, for any marker substring.
The `try/except` wrapping the read is modelled by the `none` case: a read
failure yields `false`. -/
def is_auto_generated_file : Option (List String) → Bool
  | none => false
  | some lines =>
    let first_lines := pyJoin (lines.take 10)
    auto_gen_indicators.any (fun indicator => pyIn (pyLower indicator) (pyLower first_lines))

/-- `WorkflowPermissionsVerifier.check_root_permissions`: classify the root
`permissions` value of a parsed workflow document.  `fileLines` is the raw
text of the same file, consulted by the auto-generated heuristic.  Returns
`(is_valid, errors, warnings)` exactly as the Python function does. -/
def check_root_permissions (workflow_data : List (String × YamlValue))
    (fileLines : Option (List String)) : Bool × List String × List String :=
  match dictGet "permissions" workflow_data with
  | none => (false, ["Missing root-level \x27permissions\x27 block"], [])
  | some YamlValue.vnull => (false, ["Root-level \x27permissions\x27 block is empty"], [])
  | some (YamlValue.vstr s) =>
    if s = "read-all" then (true, [], [])
    else if s = "write-all" then
      (true, [],
        ["Root-level \x27write-all\x27 permission is overly permissive - consider using \x27read-all\x27 or \x27contents: read\x27"])
    else (false, ["Invalid root-level permissions string: \x27" ++ s ++ "\x27"], [])
  | some (YamlValue.vmap entries) =>
    if entries.length = 1 ∧ optIsStr (dictGet "contents" entries) "read" = true then
      (true, [], [])
    else if entries.length = 0 then
      (false, ["Root-level permissions block is empty"], [])
    else if entries.length > 1 ∨
        (entries.length = 1 ∧ pairEqContentsRead (entries.headD ("", YamlValue.vnull)) = false) then
      if is_auto_generated_file fileLines = true then
        (true, [],
          ["Auto-generated file with root-level permissions: " ++ reprYaml (YamlValue.vmap entries),
           "Consider configuring the generation tool for minimal permissions if possible"])
      else
        (true, [],
          ["Root-level permissions should be limited to \x27contents: read\x27 or \x27read-all\x27. Found: " ++ reprYaml (YamlValue.vmap entries),
           "Consider moving specific permissions to job level if needed"])
    else (true, [], [])
  | some other => (false, ["Invalid root-level permissions format: " ++ pyTypeName other], [])

/-- Per-job record built by `analyze_job_permissions`. -/
structure JobAnalysis where
  has_permissions : Bool
  permissions : Option YamlValue
  is_reusable_workflow : Bool
  has_steps : Bool

/-- `WorkflowPermissionsVerifier.analyze_job_permissions`: informational
per-job analysis; entries whose value is not a mapping are skipped. -/
def analyze_job_permissions (workflow_data : List (String × YamlValue)) :
    List (String × JobAnalysis) :=
  match dictGet "jobs" workflow_data with
  | some (YamlValue.vmap jobs) =>
    jobs.filterMap (fun p =>
      match p.2 with
      | YamlValue.vmap job_data =>
        some (p.1,
          { has_permissions := (dictGet "permissions" job_data).isSome
            permissions := dictGet "permissions" job_data
            is_reusable_workflow :=
              (dictGet "uses" job_data).isSome && !(dictGet "steps" job_data).isSome
            has_steps := (dictGet "steps" job_data).isSome })
      | _ => none)
  | _ => []

/-- The per-file outcome assembled by `verify_workflow_file`. -/
structure FileResult where
  is_valid : Bool
  errors : List String
  warnings : List String
  job_analysis : List (String × JobAnalysis)
  is_auto_generated : Bool

/-- One input file of a run: the raw-line read outcome (`none` = read
failure) and the `yaml.safe_load` outcome (`Except.error` = load error,
where a file-read failure in `load_yaml_file` also surfaces as an error
string). -/
structure WorkflowFile where
  lines : Option (List String)
  parsed : Except String YamlValue

/-- `WorkflowPermissionsVerifier.verify_workflow_file`: per-file pipeline -
load error, non-mapping root, or the root-permission classification. -/
def verify_workflow_file (f : WorkflowFile) : FileResult :=
  match f.parsed with
  | Except.error e =>
    { is_valid := false, errors := [e], warnings := [], job_analysis := []
      is_auto_generated := is_auto_generated_file f.lines }
  | Except.ok (YamlValue.vmap d) =>
    let r := check_root_permissions d f.lines
    { is_valid := r.1, errors := r.2.1, warnings := r.2.2
      job_analysis := analyze_job_permissions d
      is_auto_generated := is_auto_generated_file f.lines }
  | Except.ok _ =>
    { is_valid := false, errors := ["Workflow file is not a valid YAML dictionary"]
      warnings := [], job_analysis := []
      is_auto_generated := is_auto_generated_file f.lines }

/-- The statistics update performed by `print_file_result` for one result:
`(files_passed, files_with_warnings, files_with_errors)`. -/
def updateStats (s : Nat × Nat × Nat) (r : FileResult) : Nat × Nat × Nat :=
  if r.is_valid = true then
    if r.warnings ≠ [] then (s.1, s.2.1 + 1, s.2.2) else (s.1 + 1, s.2.1, s.2.2)
  else (s.1, s.2.1, s.2.2 + 1)

/-- Exit status of `verify_all_workflows` on a run that completes without an
unhandled exception or interrupt over an existing directory: `sys.exit(1)`
fires exactly when `files_with_errors > 0`; with no files found, or after a
normal return, `main` falls through and the process exits 0. -/
def verify_all_workflows_exit (files : List WorkflowFile) : Nat :=
  if files.isEmpty = true then 0
  else if ((files.map verify_workflow_file).foldl updateStats (0, 0, 0)).2.2 > 0 then 1
  else 0

/-! ## `check_formatting.py` -/

/-- The root-level trigger test of `analyze_yaml_formatting`:
`(stripped == "on:" or stripped.startswith("on: ")) and not line.startswith(" ")`. -/
def isOnTriggerLine (line : String) : Bool :=
  decide ((pyStrip line = "on:" ∨ pyStartsWith (pyStrip line) "on: " = true) ∧
    pyStartsWith line " " = false)

/-- The scanning loop of `analyze_yaml_formatting`, reduced to the datum the
verdict depends on: the final value of `on_block_end` (`-1` when never set).
`i` is the index of the head of the remaining lines; `in_on_block` and
`on_block_end` are the loop variables of the source. -/
def onLoop : List String → Nat → Bool → Int → Int
  | [], _, _, on_block_end => on_block_end
  | line :: rest, i, in_on_block, on_block_end =>
    if isOnTriggerLine line = true then
      if pyStrip line = "on:" then
        onLoop rest (i + 1) true on_block_end
      else
        (i : Int)
    else if in_on_block = true then
      if pyStrip line ≠ "" ∧ pyStartsWith line " " = true then
        onLoop rest (i + 1) in_on_block (i : Int)
      else if pyStrip line ≠ "" ∧ pyStartsWith line " " = false then
        on_block_end
      else
        onLoop rest (i + 1) in_on_block on_block_end
    else
      onLoop rest (i + 1) in_on_block on_block_end

/-- `analyze_yaml_formatting`: `none` models the "Could not find complete
structure" early return (no verdict); `some true` is the Rule B
"blank separator" verdict, `some false` the Rule A "no separator" verdict,
decided by `has_blank_line = on_block_end + 1 < len(lines) and
lines[on_block_end + 1].strip() == ""`. -/
def analyze_yaml_formatting (lines : List String) : Option Bool :=
  let on_block_end := onLoop lines 0 false (-1)
  if on_block_end = -1 then none
  else
    let idx := (on_block_end + 1).toNat
    some (decide (idx < lines.length) && decide (pyStrip (lines.getD idx "") = ""))

/-- The root-level permissions-line test of `verify_root_permissions`:
`stripped.startswith("permissions:") and not line.startswith(" ")`. -/
def isRootPermLine (line : String) : Bool :=
  pyStartsWith (pyStrip line) "permissions:" && !(pyStartsWith line " ")

/-- Index of the first root-level permissions line, mirroring the search
loop of `verify_root_permissions` (`i` is the index of the head). -/
def findRootPermIdx : List String → Nat → Option Nat
  | [], _ => none
  | line :: rest, i =>
    if isRootPermLine line = true then some i else findRootPermIdx rest (i + 1)

/-- `verify_root_permissions`: the stricter literal-text check of the
secondary entry point.  `none` models a file-read failure (the `except`
branch returns `False`). -/
def verify_root_permissions : Option (List String) → Bool
  | none => false
  | some lines =>
    match findRootPermIdx lines 0 with
    | none => false
    | some p =>
      let perm_line := pyStrip (lines.getD p "")
      if perm_line = "permissions: read-all" then true
      else if perm_line = "permissions:" then
        if lines.length ≤ p + 1 then false
        else
          let contents_line := lines.getD (p + 1) ""
          if pyStrip contents_line = "contents: read" ∧ pyStartsWith contents_line "  " = true then
            if p + 2 < lines.length ∧ pyStrip (lines.getD (p + 2) "") ≠ "" ∧
                pyStartsWith (lines.getD (p + 2) "") "  " = true then
              false
            else true
          else false
      else false

/-! ## Helper lemmas -/

/-- The first guard of the mapping branch holds exactly for the canonical
one-entry mapping `(contents : read)`. -/
theorem canonical_guard_iff (entries : List (String × YamlValue)) :
    (entries.length = 1 ∧ optIsStr (dictGet "contents" entries) "read" = true) ↔
      entries = [("contents", YamlValue.vstr "read")] := by
  constructor
  · rintro ⟨hlen, hstr⟩
    rcases entries with _ | ⟨⟨k, v⟩, _ | ⟨e2, rest2⟩⟩
    · simp at hlen
    · by_cases hk : k = "contents"
      · subst hk
        rw [show dictGet "contents" [("contents", v)] = some v from by simp [dictGet]] at hstr
        cases v <;> simp [optIsStr] at hstr
        subst hstr; rfl
      · simp [dictGet, hk, optIsStr] at hstr
    · simp at hlen
  · rintro rfl
    exact ⟨rfl, by decide⟩

/-- Any non-empty, non-canonical mapping satisfies the warning guard of the
mapping branch. -/
theorem warn_guard_holds (entries : List (String × YamlValue))
    (hne : entries ≠ [("contents", YamlValue.vstr "read")]) (hnil : entries ≠ []) :
    entries.length > 1 ∨ (entries.length = 1 ∧
      pairEqContentsRead (entries.headD ("", YamlValue.vnull)) = false) := by
  rcases entries with _ | ⟨⟨k, v⟩, _ | ⟨e2, rest2⟩⟩
  · exact absurd rfl hnil
  · right
    refine ⟨rfl, ?_⟩
    cases v with
    | vstr t =>
      by_cases hk : k = "contents"
      · by_cases ht : t = "read"
        · exact absurd (by rw [hk, ht]) hne
        · simp [pairEqContentsRead, ht]
      · simp [pairEqContentsRead, hk]
    | vnull => rfl
    | vnum n => rfl
    | vbool b => rfl
    | vseq l => rfl
    | vmap m => rfl
  · left; simp

/-- Invariant of `check_root_permissions`: validity coincides with an empty
error list, and any invalid result carries exactly one error and no
warnings.  Shared by the claims below. -/
theorem check_root_permissions_shape (d : List (String × YamlValue))
    (fl : Option (List String)) :
    ((check_root_permissions d fl).1 = true ↔ (check_root_permissions d fl).2.1 = []) ∧
    ((check_root_permissions d fl).1 = false →
      (check_root_permissions d fl).2.1.length = 1 ∧ (check_root_permissions d fl).2.2 = []) := by
  cases hd : dictGet "permissions" d with
  | none => simp [check_root_permissions, hd]
  | some p =>
    cases p with
    | vnull => simp [check_root_permissions, hd]
    | vstr s =>
      simp only [check_root_permissions, hd]
      split_ifs <;> simp
    | vnum n => simp [check_root_permissions, hd]
    | vbool b => simp [check_root_permissions, hd]
    | vseq l => simp [check_root_permissions, hd]
    | vmap entries =>
      simp only [check_root_permissions, hd]
      split_ifs <;> simp

/-! ## Claims about `check_root_permissions` -/

/-- C9: for every parsed document and file, `check_root_permissions` returns
`(is_valid, errors, warnings)` with `is_valid` true iff `errors` is empty,
and every invalid result carries exactly one error message and an empty
warnings list. -/
theorem claim_C9_result_invariant (d : List (String × YamlValue))
    (fl : Option (List String)) :
    ((check_root_permissions d fl).1 = true ↔ (check_root_permissions d fl).2.1 = []) ∧
    ((check_root_permissions d fl).1 = false →
      (check_root_permissions d fl).2.1.length = 1 ∧ (check_root_permissions d fl).2.2 = []) :=
  check_root_permissions_shape d fl

/-- Witness for C9 at the empty document (missing `permissions` key). -/
theorem claim_C9_witness :
    (check_root_permissions [] none).2.1.length = 1 ∧
    (check_root_permissions [] none).2.2 = [] :=
  (claim_C9_result_invariant [] none).2 (by decide)

/-- C2: a string-valued root permission is valid with no warnings for
"read-all", valid with exactly the one overly-permissive warning for
"write-all", and an unrecognized-string error otherwise. -/
theorem claim_C2_string_classification (doc : List (String × YamlValue))
    (fl : Option (List String)) (s : String)
    (h : dictGet "permissions" doc = some (YamlValue.vstr s)) :
    check_root_permissions doc fl =
      if s = "read-all" then (true, [], [])
      else if s = "write-all" then
        (true, [],
          ["Root-level \x27write-all\x27 permission is overly permissive - consider using \x27read-all\x27 or \x27contents: read\x27"])
      else (false, ["Invalid root-level permissions string: \x27" ++ s ++ "\x27"], []) := by
  simp only [check_root_permissions, h]

/-- Witness for C2 at the string "write-all". -/
theorem claim_C2_witness :
    check_root_permissions [("permissions", YamlValue.vstr "write-all")] none =
      (true, [],
        ["Root-level \x27write-all\x27 permission is overly permissive - consider using \x27read-all\x27 or \x27contents: read\x27"]) := by
  have h := claim_C2_string_classification
    [("permissions", YamlValue.vstr "write-all")] none "write-all" rfl
  rw [if_neg (by decide), if_pos rfl] at h
  exact h

/-- C3: an absent `permissions` key, a null value and an empty mapping are
all classified as errors, and every other structural shape (sequence,
number, boolean) is the invalid-type error. -/
theorem claim_C3_invalid_shapes (doc : List (String × YamlValue))
    (fl : Option (List String)) :
    (dictGet "permissions" doc = none →
      check_root_permissions doc fl =
        (false, ["Missing root-level \x27permissions\x27 block"], [])) ∧
    (dictGet "permissions" doc = some YamlValue.vnull →
      check_root_permissions doc fl =
        (false, ["Root-level \x27permissions\x27 block is empty"], [])) ∧
    (dictGet "permissions" doc = some (YamlValue.vmap []) →
      check_root_permissions doc fl =
        (false, ["Root-level permissions block is empty"], [])) ∧
    (∀ l, dictGet "permissions" doc = some (YamlValue.vseq l) →
      check_root_permissions doc fl =
        (false, ["Invalid root-level permissions format: <class \x27list\x27>"], [])) ∧
    (∀ n, dictGet "permissions" doc = some (YamlValue.vnum n) →
      check_root_permissions doc fl =
        (false, ["Invalid root-level permissions format: <class \x27int\x27>"], [])) ∧
    (∀ b, dictGet "permissions" doc = some (YamlValue.vbool b) →
      check_root_permissions doc fl =
        (false, ["Invalid root-level permissions format: <class \x27bool\x27>"], [])) := by
  refine ⟨fun h => ?_, fun h => ?_, fun h => ?_, fun l h => ?_, fun n h => ?_, fun b h => ?_⟩ <;>
    simp [check_root_permissions, h, optIsStr, dictGet, pyTypeName]

/-- Witness for C3 at the empty document. -/
theorem claim_C3_witness :
    check_root_permissions [] none =
      (false, ["Missing root-level \x27permissions\x27 block"], []) :=
  (claim_C3_invalid_shapes [] none).1 rfl

/-- C1: a mapping-valued root permission equal to the canonical
`(contents : read)` is valid with zero warnings; any other non-empty
mapping is valid with a two-part warning, whose softer generated-file
variant is selected exactly when the auto-generated heuristic matches
(validity unchanged between the two cases). -/
theorem claim_C1_mapping_classification (doc : List (String × YamlValue))
    (fl : Option (List String)) (entries : List (String × YamlValue))
    (h : dictGet "permissions" doc = some (YamlValue.vmap entries)) :
    (entries = [("contents", YamlValue.vstr "read")] →
      check_root_permissions doc fl = (true, [], [])) ∧
    (entries ≠ [("contents", YamlValue.vstr "read")] → entries ≠ [] →
      (check_root_permissions doc fl).1 = true ∧
      (check_root_permissions doc fl).2.1 = [] ∧
      (is_auto_generated_file fl = true →
        (check_root_permissions doc fl).2.2 =
          ["Auto-generated file with root-level permissions: " ++
              reprYaml (YamlValue.vmap entries),
            "Consider configuring the generation tool for minimal permissions if possible"]) ∧
      (is_auto_generated_file fl = false →
        (check_root_permissions doc fl).2.2 =
          ["Root-level permissions should be limited to \x27contents: read\x27 or \x27read-all\x27. Found: " ++
              reprYaml (YamlValue.vmap entries),
            "Consider moving specific permissions to job level if needed"])) := by
  constructor
  · rintro rfl
    simp [check_root_permissions, h, dictGet, optIsStr]
  · intro hne hnil
    have hc1 : ¬(entries.length = 1 ∧ optIsStr (dictGet "contents" entries) "read" = true) :=
      fun hc => hne ((canonical_guard_iff entries).mp hc)
    have hc2 : ¬(entries.length = 0) := fun hc => hnil (List.length_eq_zero.mp hc)
    have hc3 := warn_guard_holds entries hne hnil
    simp only [check_root_permissions, h]
    rw [if_neg hc1, if_neg hc2, if_pos hc3]
    by_cases hag : is_auto_generated_file fl = true
    · rw [if_pos hag]
      refine ⟨rfl, rfl, fun _ => rfl, fun hf => ?_⟩
      rw [hag] at hf
      simp at hf
    · rw [if_neg hag]
      exact ⟨rfl, rfl, fun ht => absurd ht hag, fun _ => rfl⟩

/-- Witness for C1 at a one-entry non-canonical mapping without generated
markers. -/
theorem claim_C1_witness :
    (check_root_permissions
        [("permissions", YamlValue.vmap [("issues", YamlValue.vstr "write")])] none).2.2 =
      ["Root-level permissions should be limited to \x27contents: read\x27 or \x27read-all\x27. Found: " ++
          reprYaml (YamlValue.vmap [("issues", YamlValue.vstr "write")]),
        "Consider moving specific permissions to job level if needed"] := by
  have h := (claim_C1_mapping_classification
      [("permissions", YamlValue.vmap [("issues", YamlValue.vstr "write")])] none
      [("issues", YamlValue.vstr "write")] rfl).2
    (by intro hc; injection hc with h1 _; injection h1 with hk _; exact absurd hk (by decide))
    (by simp)
  exact h.2.2.2 rfl

/-! ## Claims about the generated-file heuristic and the run exit status -/

/-- C4: the generated-file heuristic depends only on the first 10 lines of
the file (so a marker first appearing on line 11 is not detected), matches
the marker substrings case-insensitively, returns a boolean, and a read
failure yields `false` instead of an error. -/
theorem claim_C4_generated_heuristic :
    (∀ lines : List String,
      is_auto_generated_file (some lines) = is_auto_generated_file (some (lines.take 10))) ∧
    is_auto_generated_file none = false ∧
    is_auto_generated_file (some (List.replicate 10 "x\n" ++ ["DO NOT EDIT\n"])) = false ∧
    is_auto_generated_file (some ["# This file is AUTO-GENERATED.\n"]) = true := by
  refine ⟨fun lines => ?_, rfl, by decide, by decide⟩
  simp [is_auto_generated_file, List.take_take]

/-- Folding the statistics update counts one error per invalid result. -/
theorem foldl_updateStats_errors (results : List FileResult) (s : Nat × Nat × Nat) :
    (results.foldl updateStats s).2.2 =
      s.2.2 + results.countP (fun r => !r.is_valid) := by
  induction results generalizing s with
  | nil => simp
  | cons r rest ih =>
    rw [List.foldl_cons, ih, List.countP_cons]
    unfold updateStats
    by_cases hv : r.is_valid = true
    · rw [if_pos hv]
      by_cases hw : r.warnings ≠ []
      · rw [if_pos hw]; simp [hv]
      · rw [if_neg hw]; simp [hv]
    · rw [if_neg hv]
      rw [Bool.not_eq_true] at hv
      simp [hv]
      omega

/-- A per-file result is invalid exactly when it carries an error. -/
theorem verify_workflow_file_error_iff (f : WorkflowFile) :
    (verify_workflow_file f).is_valid = false ↔ (verify_workflow_file f).errors ≠ [] := by
  cases hp : f.parsed with
  | error e => simp [verify_workflow_file, hp]
  | ok v =>
    cases v with
    | vmap d =>
      have hinv := (check_root_permissions_shape d f.lines).1
      simp only [verify_workflow_file, hp]
      rw [ne_eq, ← hinv, Bool.not_eq_true]
    | vnull => simp [verify_workflow_file, hp]
    | vstr s => simp [verify_workflow_file, hp]
    | vnum n => simp [verify_workflow_file, hp]
    | vbool b => simp [verify_workflow_file, hp]
    | vseq l => simp [verify_workflow_file, hp]

/-- C8: for a run over an existing directory completing without an
unhandled exception or interrupt, the exit status is 1 exactly when some
file result carries an error; when no result has an error (warnings
included, and the zero-file case) the exit status is 0. -/
theorem claim_C8_exit_code (files : List WorkflowFile) :
    (verify_all_workflows_exit files = 1 ↔
      ∃ r ∈ files.map verify_workflow_file, r.errors ≠ []) ∧
    ((∀ r ∈ files.map verify_workflow_file, r.errors = []) →
      verify_all_workflows_exit files = 0) := by
  have key : verify_all_workflows_exit files = 1 ↔
      ∃ r ∈ files.map verify_workflow_file, r.errors ≠ [] := by
    unfold verify_all_workflows_exit
    by_cases hemp : files.isEmpty = true
    · rw [if_pos hemp, List.isEmpty_iff.mp hemp]
      simp
    · rw [if_neg hemp, foldl_updateStats_errors]
      have hcnt : 0 + (files.map verify_workflow_file).countP (fun r => !r.is_valid) > 0 ↔
          ∃ r ∈ files.map verify_workflow_file, r.errors ≠ [] := by
        rw [Nat.zero_add, gt_iff_lt, List.countP_pos_iff]
        constructor
        · rintro ⟨r, hr, hpr⟩
          refine ⟨r, hr, ?_⟩
          obtain ⟨f, hf, rfl⟩ := List.mem_map.mp hr
          exact (verify_workflow_file_error_iff f).mp (by simpa using hpr)
        · rintro ⟨r, hr, hre⟩
          refine ⟨r, hr, ?_⟩
          obtain ⟨f, hf, rfl⟩ := List.mem_map.mp hr
          simpa using (verify_workflow_file_error_iff f).mpr hre
      by_cases hc : 0 + (files.map verify_workflow_file).countP (fun r => !r.is_valid) > 0
      · rw [if_pos hc]
        exact iff_of_true rfl (hcnt.mp hc)
      · rw [if_neg hc]
        exact iff_of_false (by decide) (fun hex => hc (hcnt.mpr hex))
  refine ⟨key, fun hall => ?_⟩
  have h01 : verify_all_workflows_exit files = 0 ∨ verify_all_workflows_exit files = 1 := by
    unfold verify_all_workflows_exit
    split_ifs <;> simp
  cases h01 with
  | inl h => exact h
  | inr h =>
    obtain ⟨r, hr, hre⟩ := key.mp h
    exact absurd (hall r hr) hre

/-- Witness for C8 at the empty run. -/
theorem claim_C8_witness : verify_all_workflows_exit [] = 0 :=
  (claim_C8_exit_code []).2 (by simp)

/-! ## Lemmas about the formatting-analyzer loop -/

/-- With no root-level trigger line and the block never entered, the loop
leaves `on_block_end` untouched. -/
theorem onLoop_no_trigger (lines : List String) (i : Nat) (e : Int)
    (h : ∀ l ∈ lines, isOnTriggerLine l = false) :
    onLoop lines i false e = e := by
  revert h
  induction lines generalizing i with
  | nil => intro h; rfl
  | cons l rest ih =>
    intro h
    have hl := h l (List.mem_cons_self l rest)
    simp only [onLoop]
    rw [if_neg (by simp [hl]), if_neg (by simp)]
    exact ih (i + 1) (fun x hx => h x (List.mem_cons_of_mem l hx))

/-- With the trigger block not yet entered, lines that are not trigger
lines are skipped without changing the loop state. -/
theorem onLoop_skip_front (pre tail : List String) (i : Nat) (e : Int)
    (h : ∀ l ∈ pre, isOnTriggerLine l = false) :
    onLoop (pre ++ tail) i false e = onLoop tail (i + pre.length) false e := by
  revert h
  induction pre generalizing i with
  | nil => intro h; simp
  | cons l ls ih =>
    intro h
    have hl := h l (List.mem_cons_self l ls)
    simp only [List.cons_append, onLoop]
    rw [if_neg (by simp [hl]), if_neg (by simp)]
    simp only [List.append_eq]
    rw [ih (i + 1) (fun x hx => h x (List.mem_cons_of_mem l hx))]
    have harg : i + 1 + ls.length = i + (l :: ls).length := by
      simp only [List.length_cons]
      omega
    rw [harg]

/-- A root-level line whose trimmed content is exactly the trigger key
(multiline form) enters the trigger block. -/
theorem onLoop_on_header (onl : String) (tail : List String) (i : Nat) (b : Bool) (e : Int)
    (h1 : pyStrip onl = "on:") (h2 : pyStartsWith onl " " = false) :
    onLoop (onl :: tail) i b e = onLoop tail (i + 1) true e := by
  have htrig : isOnTriggerLine onl = true := by
    simp only [isOnTriggerLine, decide_eq_true_eq]
    exact ⟨Or.inl h1, h2⟩
  simp only [onLoop]
  rw [if_pos htrig, if_pos h1]

/-- A root-level single-line trigger (`on: ` followed by an inline value)
ends the scan at its own index. -/
theorem onLoop_single_trigger (tl : String) (tail : List String) (i : Nat) (b : Bool) (e : Int)
    (h1 : pyStartsWith (pyStrip tl) "on: " = true) (h2 : pyStartsWith tl " " = false) :
    onLoop (tl :: tail) i b e = (i : Int) := by
  have hno : pyStrip tl ≠ "on:" := by
    intro hc
    rw [hc] at h1
    exact absurd h1 (by decide)
  have htrig : isOnTriggerLine tl = true := by
    simp only [isOnTriggerLine, decide_eq_true_eq]
    exact ⟨Or.inr h1, h2⟩
  simp only [onLoop]
  rw [if_pos htrig, if_neg hno]

/-- Inside the trigger block, an indented non-blank line records its own
index as the block end. -/
theorem onLoop_content_line (lc : String) (tail : List String) (i : Nat) (e : Int)
    (h1 : pyStartsWith lc " " = true) (h2 : pyStrip lc ≠ "") :
    onLoop (lc :: tail) i true e = onLoop tail (i + 1) true (i : Int) := by
  have htrig : isOnTriggerLine lc = false := by
    simp only [isOnTriggerLine, decide_eq_false_iff_not]
    rintro ⟨-, hr⟩
    simp [h1] at hr
  simp only [onLoop]
  rw [if_neg (by simp [htrig]), if_pos trivial, if_pos ⟨h2, h1⟩]

/-- Inside the trigger block, a blank line is skipped without recording an
end index. -/
theorem onLoop_blank_line (b : String) (tail : List String) (j : Nat) (E : Int)
    (hb : pyStrip b = "") :
    onLoop (b :: tail) j true E = onLoop tail (j + 1) true E := by
  have hnot : isOnTriggerLine b = false := by
    simp only [isOnTriggerLine, decide_eq_false_iff_not]
    rintro ⟨hor, -⟩
    rw [hb] at hor
    rcases hor with h1 | h1
    · exact absurd h1 (by decide)
    · exact absurd h1 (by decide)
  simp only [onLoop]
  rw [if_neg (by simp [hnot]), if_pos trivial, if_neg (by simp [hb]), if_neg (by simp [hb])]

/-- Inside the trigger block, a run of blank lines is skipped. -/
theorem onLoop_blanks (gap tail : List String) (j : Nat) (E : Int)
    (h : ∀ l ∈ gap, pyStrip l = "") :
    onLoop (gap ++ tail) j true E = onLoop tail (j + gap.length) true E := by
  revert h
  induction gap generalizing j with
  | nil => intro h; simp
  | cons g gs ih =>
    intro h
    rw [List.cons_append, onLoop_blank_line g _ _ _ (h g (List.mem_cons_self g gs))]
    rw [ih (j + 1) (fun x hx => h x (List.mem_cons_of_mem g hx))]
    have harg : j + 1 + gs.length = j + (g :: gs).length := by
      simp only [List.length_cons]
      omega
    rw [harg]

/-- Inside the trigger block, trailing blank lines at end of file leave the
recorded block end unchanged. -/
theorem onLoop_blanks_end (tgap : List String) (j : Nat) (E : Int)
    (h : ∀ l ∈ tgap, pyStrip l = "") :
    onLoop tgap j true E = E := by
  revert h
  induction tgap generalizing j with
  | nil => intro h; rfl
  | cons g gs ih =>
    intro h
    rw [onLoop_blank_line g gs j E (h g (List.mem_cons_self g gs))]
    exact ih (j + 1) (fun x hx => h x (List.mem_cons_of_mem g hx))

/-- Inside the trigger block, a run of lines that are each indented content
or blank advances the scan past the run, leaving some recorded end. -/
theorem onLoop_mixed (mid tail : List String) (i : Nat) (e : Int)
    (h : ∀ l ∈ mid, (pyStartsWith l " " = true ∧ pyStrip l ≠ "") ∨ pyStrip l = "") :
    ∃ d : Int, onLoop (mid ++ tail) i true e = onLoop tail (i + mid.length) true d := by
  revert h
  induction mid generalizing i e with
  | nil => intro h; exact ⟨e, by simp⟩
  | cons m ms ih =>
    intro h
    have harg : i + 1 + ms.length = i + (m :: ms).length := by
      simp only [List.length_cons]
      omega
    rcases h m (List.mem_cons_self m ms) with ⟨h1, h2⟩ | hb
    · rw [List.cons_append, onLoop_content_line m _ _ _ h1 h2]
      obtain ⟨d, hd⟩ := ih (i + 1) (i : Int) (fun x hx => h x (List.mem_cons_of_mem m hx))
      exact ⟨d, by rw [hd, harg]⟩
    · rw [List.cons_append, onLoop_blank_line m _ _ _ hb]
      obtain ⟨d, hd⟩ := ih (i + 1) e (fun x hx => h x (List.mem_cons_of_mem m hx))
      exact ⟨d, by rw [hd, harg]⟩

/-- Inside the trigger block, a non-blank root-level non-trigger line ends
the scan, returning the recorded block end. -/
theorem onLoop_boundary (tail : List String) (nb : String) (j : Nat) (E : Int)
    (hnot : isOnTriggerLine nb = false) (hroot : pyStartsWith nb " " = false)
    (hne : pyStrip nb ≠ "") :
    onLoop (nb :: tail) j true E = E := by
  simp only [onLoop]
  rw [if_neg (by simp [hnot]), if_pos trivial, if_neg (by simp [hroot]), if_pos ⟨hne, hroot⟩]

/-- The line at the index just after the last content line of the block,
read through the composed list shape. -/
theorem getD_after_block (pre mid' T : List String) (onl lc : String) :
    (pre ++ (onl :: (mid' ++ (lc :: T)))).getD (pre.length + 1 + mid'.length + 1) "" =
      T.getD 0 "" := by
  rw [List.getD_append_right pre (onl :: (mid' ++ (lc :: T))) ""
    (pre.length + 1 + mid'.length + 1) (by omega)]
  have h1 : pre.length + 1 + mid'.length + 1 - pre.length = mid'.length + 1 + 1 := by omega
  rw [h1, List.getD_cons_succ]
  rw [List.getD_append_right mid' (lc :: T) "" (mid'.length + 1) (by omega)]
  have h2 : mid'.length + 1 - mid'.length = 0 + 1 := by omega
  rw [h2, List.getD_cons_succ]

/-- The line at the index just after a single-line trigger. -/
theorem getD_after_single (pre T : List String) (tl : String) :
    (pre ++ (tl :: T)).getD (pre.length + 1) "" = T.getD 0 "" := by
  rw [List.getD_append_right pre (tl :: T) "" (pre.length + 1) (by omega)]
  have h1 : pre.length + 1 - pre.length = 0 + 1 := by omega
  rw [h1, List.getD_cons_succ]

/-! ## Claims about `analyze_yaml_formatting` -/

/-- C5: whenever the analyzer locates the trigger block — in the multiline
form (after any prefix free of trigger lines, with interior blank lines
allowed in the block and any number of blank lines before the boundary) or
in the single-line form — and a subsequent root-level boundary line, the
verdict is "blank separator" (Rule B) exactly when the single line
following the end of the trigger block has empty trimmed content, and
"no separator" (Rule A) otherwise. -/
theorem claim_C5_separator_verdict :
    (∀ (pre mid' gap rest : List String) (onl lc nb : String),
      (∀ l ∈ pre, isOnTriggerLine l = false) →
      pyStrip onl = "on:" → pyStartsWith onl " " = false →
      (∀ l ∈ mid', (pyStartsWith l " " = true ∧ pyStrip l ≠ "") ∨ pyStrip l = "") →
      pyStartsWith lc " " = true → pyStrip lc ≠ "" →
      (∀ l ∈ gap, pyStrip l = "") →
      isOnTriggerLine nb = false → pyStartsWith nb " " = false → pyStrip nb ≠ "" →
      analyze_yaml_formatting (pre ++ (onl :: (mid' ++ (lc :: (gap ++ (nb :: rest)))))) =
        some (decide (pyStrip ((gap ++ (nb :: rest)).getD 0 "") = ""))) ∧
    (∀ (pre rest : List String) (tl : String),
      (∀ l ∈ pre, isOnTriggerLine l = false) →
      pyStartsWith (pyStrip tl) "on: " = true → pyStartsWith tl " " = false →
      rest ≠ [] →
      analyze_yaml_formatting (pre ++ (tl :: rest)) =
        some (decide (pyStrip (rest.getD 0 "") = ""))) := by
  constructor
  · intro pre mid' gap rest onl lc nb hpre h1 h2 hmid hlc1 hlc2 hgap hnb1 hnb2 hnb3
    have hloop : onLoop (pre ++ (onl :: (mid' ++ (lc :: (gap ++ (nb :: rest)))))) 0 false (-1) =
        ((pre.length + 1 + mid'.length : Nat) : Int) := by
      rw [onLoop_skip_front pre _ 0 (-1) hpre]
      rw [onLoop_on_header onl _ _ _ _ h1 h2]
      obtain ⟨d, hd⟩ :=
        onLoop_mixed mid' (lc :: (gap ++ (nb :: rest))) (0 + pre.length + 1) (-1) hmid
      rw [hd]
      rw [onLoop_content_line lc _ _ _ hlc1 hlc2]
      rw [onLoop_blanks gap _ _ _ hgap]
      rw [onLoop_boundary rest nb _ _ hnb1 hnb2 hnb3]
      omega
    simp only [analyze_yaml_formatting, hloop]
    rw [if_neg (by omega : ¬(((pre.length + 1 + mid'.length : Nat) : Int) = -1))]
    have hto : (((pre.length + 1 + mid'.length : Nat) : Int) + 1).toNat =
        pre.length + 1 + mid'.length + 1 := by omega
    rw [hto, getD_after_block pre mid' (gap ++ (nb :: rest)) onl lc]
    have hlt : pre.length + 1 + mid'.length + 1 <
        (pre ++ (onl :: (mid' ++ (lc :: (gap ++ (nb :: rest)))))).length := by
      simp only [List.length_append, List.length_cons]
      omega
    rw [decide_eq_true hlt, Bool.true_and]
  · intro pre rest tl hpre h1 h2 hrest
    have hloop : onLoop (pre ++ (tl :: rest)) 0 false (-1) = ((pre.length : Nat) : Int) := by
      rw [onLoop_skip_front pre _ 0 (-1) hpre]
      rw [onLoop_single_trigger tl _ _ _ _ h1 h2]
      omega
    simp only [analyze_yaml_formatting, hloop]
    rw [if_neg (by omega : ¬(((pre.length : Nat) : Int) = -1))]
    have hto : (((pre.length : Nat) : Int) + 1).toNat = pre.length + 1 := by omega
    rw [hto, getD_after_single pre rest tl]
    have hrl : rest.length ≠ 0 := fun hz => hrest (List.length_eq_zero.mp hz)
    have hlt : pre.length + 1 < (pre ++ (tl :: rest)).length := by
      simp only [List.length_append, List.length_cons]
      omega
    rw [decide_eq_true hlt, Bool.true_and]

/-- Witness for C5: the multiline form behind a prefix, with an interior
blank line and a two-blank gap before the boundary (Rule B), and the
single-line form with the boundary adjacent (Rule A). -/
theorem claim_C5_witness :
    analyze_yaml_formatting
      ["name: ci", "on:", "  push:", "", "  pull_request:", "", "", "permissions:", "jobs:"] =
      some true ∧
    analyze_yaml_formatting ["on: [push]", "permissions:"] = some false := by
  constructor
  · exact claim_C5_separator_verdict.1 ["name: ci"] ["  push:", ""] ["", ""] ["jobs:"]
      "on:" "  pull_request:" "permissions:" (by decide) (by decide) (by decide)
      (by decide) (by decide) (by decide) (by decide) (by decide) (by decide) (by decide)
  · exact claim_C5_separator_verdict.2 [] ["permissions:"] "on: [push]"
      (by decide) (by decide) (by decide) (by decide)

/-- C6 counterexample: a trigger block with indented content that is the
last content of the file has no subsequent root-level boundary line, yet
the analyzer yields the "no separator" verdict instead of reporting
"structure not found" as the claim requires. -/
theorem claim_C6_counterexample :
    analyze_yaml_formatting ["on:", "  push:"] = some false := by decide

/-- C6 amended: the analyzer reports "structure not found" and yields no
verdict when no root-level trigger line exists, and conversely any yielded
verdict implies a trigger line was found; but a located trigger block with
at least one indented content line that is the last content of the file —
no subsequent root-level boundary line — still yields a verdict: "blank
separator" when a blank line follows the last content line of the block,
"no separator" otherwise. -/
theorem claim_C6_amended :
    (∀ lines : List String, (∀ l ∈ lines, isOnTriggerLine l = false) →
      analyze_yaml_formatting lines = none) ∧
    (∀ lines : List String, analyze_yaml_formatting lines ≠ none →
      ∃ l ∈ lines, isOnTriggerLine l = true) ∧
    (∀ (pre mid' tgap : List String) (onl lc : String),
      (∀ l ∈ pre, isOnTriggerLine l = false) →
      pyStrip onl = "on:" → pyStartsWith onl " " = false →
      (∀ l ∈ mid', (pyStartsWith l " " = true ∧ pyStrip l ≠ "") ∨ pyStrip l = "") →
      pyStartsWith lc " " = true → pyStrip lc ≠ "" →
      (∀ l ∈ tgap, pyStrip l = "") →
      analyze_yaml_formatting (pre ++ (onl :: (mid' ++ (lc :: tgap)))) =
        some (decide (tgap ≠ []))) := by
  have hnone : ∀ lines : List String, (∀ l ∈ lines, isOnTriggerLine l = false) →
      analyze_yaml_formatting lines = none := by
    intro lines h
    simp only [analyze_yaml_formatting, onLoop_no_trigger lines 0 (-1) h]
    rw [if_pos trivial]
  refine ⟨hnone, ?_, ?_⟩
  · intro lines hne
    by_contra hex
    push_neg at hex
    refine hne (hnone lines fun l hl => ?_)
    have h1 := hex l hl
    cases hb : isOnTriggerLine l
    · rfl
    · exact absurd hb h1
  · intro pre mid' tgap onl lc hpre h1 h2 hmid hlc1 hlc2 htgap
    have hloop : onLoop (pre ++ (onl :: (mid' ++ (lc :: tgap)))) 0 false (-1) =
        ((pre.length + 1 + mid'.length : Nat) : Int) := by
      rw [onLoop_skip_front pre _ 0 (-1) hpre]
      rw [onLoop_on_header onl _ _ _ _ h1 h2]
      obtain ⟨d, hd⟩ := onLoop_mixed mid' (lc :: tgap) (0 + pre.length + 1) (-1) hmid
      rw [hd]
      rw [onLoop_content_line lc _ _ _ hlc1 hlc2]
      rw [onLoop_blanks_end tgap _ _ htgap]
      omega
    simp only [analyze_yaml_formatting, hloop]
    rw [if_neg (by omega : ¬(((pre.length + 1 + mid'.length : Nat) : Int) = -1))]
    have hto : (((pre.length + 1 + mid'.length : Nat) : Int) + 1).toNat =
        pre.length + 1 + mid'.length + 1 := by omega
    rw [hto, getD_after_block pre mid' tgap onl lc]
    cases tgap with
    | nil =>
      have hnlt : ¬(pre.length + 1 + mid'.length + 1 <
          (pre ++ (onl :: (mid' ++ (lc :: ([] : List String))))).length) := by
        simp only [List.length_append, List.length_cons, List.length_nil]
        omega
      rw [decide_eq_false hnlt, Bool.false_and]
      rfl
    | cons g gs =>
      have hg := htgap g (List.mem_cons_self g gs)
      have hlt : pre.length + 1 + mid'.length + 1 <
          (pre ++ (onl :: (mid' ++ (lc :: (g :: gs))))).length := by
        simp only [List.length_append, List.length_cons]
        omega
      rw [decide_eq_true hlt, List.getD_cons_zero, decide_eq_true hg, Bool.true_and]
      rfl

/-- Witness for the amended C6: a trigger block that is the last content of
the file, followed by one blank line, yields the blank-separator verdict
rather than "structure not found". -/
theorem claim_C6_witness :
    analyze_yaml_formatting ["on:", "  push:", ""] = some true :=
  claim_C6_amended.2.2 [] [] [""] "on:" "  push:"
    (by decide) (by decide) (by decide) (by decide) (by decide) (by decide) (by decide)


/-! ## Claims about `verify_root_permissions` -/

/-- Lines that are not root-level permissions lines are skipped by the
search loop. -/
theorem findRootPermIdx_append (pre tail : List String) (i : Nat)
    (h : ∀ l ∈ pre, isRootPermLine l = false) :
    findRootPermIdx (pre ++ tail) i = findRootPermIdx tail (i + pre.length) := by
  revert h
  induction pre generalizing i with
  | nil => intro h; simp
  | cons l ls ih =>
    intro h
    have hl := h l (List.mem_cons_self l ls)
    simp only [List.cons_append, findRootPermIdx]
    rw [if_neg (by simp [hl])]
    simp only [List.append_eq]
    rw [ih (i + 1) (fun x hx => h x (List.mem_cons_of_mem l hx))]
    congr 1
    simp only [List.length_cons]
    omega

/-- C7 counterexample: a `contents: read` block whose indented continuation
is separated by one blank line is accepted by the stricter check, although
the claim requires it to be rejected. -/
theorem claim_C7_counterexample :
    verify_root_permissions
      (some ["permissions:", "  contents: read", "", "  issues: write"]) = true := by decide

/-- C7 amended: the stricter check rejects the multi-line `contents: read`
form only when the single line immediately following it is non-blank and
two-space indented; when that line is blank, the file is accepted
regardless of any later indented continuation, because only the immediate
next line is inspected. -/
theorem claim_C7_amended (pre rest : List String) (pl cl b x : String)
    (hpre : ∀ l ∈ pre, isRootPermLine l = false)
    (hpl_root : isRootPermLine pl = true)
    (hpl : pyStrip pl = "permissions:")
    (hcl : pyStrip cl = "contents: read")
    (hcl_ind : pyStartsWith cl "  " = true)
    (hx_ne : pyStrip x ≠ "")
    (hx_ind : pyStartsWith x "  " = true)
    (hb : pyStrip b = "") :
    verify_root_permissions (some (pre ++ pl :: cl :: x :: rest)) = false ∧
    verify_root_permissions (some (pre ++ pl :: cl :: b :: x :: rest)) = true := by
  have hfind : ∀ tail : List String,
      findRootPermIdx (pre ++ pl :: tail) 0 = some pre.length := by
    intro tail
    rw [findRootPermIdx_append pre (pl :: tail) 0 hpre]
    simp only [findRootPermIdx]
    rw [if_pos hpl_root]
    congr 1
    omega
  have hget0 : ∀ tail : List String, (pre ++ pl :: tail).getD pre.length "" = pl := by
    intro tail
    rw [List.getD_append_right pre (pl :: tail) "" pre.length (le_refl _), Nat.sub_self,
      List.getD_cons_zero]
  have hget1 : ∀ (y : String) (tail : List String),
      (pre ++ pl :: y :: tail).getD (pre.length + 1) "" = y := by
    intro y tail
    rw [List.getD_append_right pre (pl :: y :: tail) "" (pre.length + 1) (by omega)]
    have h1 : pre.length + 1 - pre.length = 1 := by omega
    rw [h1]
    rfl
  have hget2 : ∀ (y z : String) (tail : List String),
      (pre ++ pl :: y :: z :: tail).getD (pre.length + 2) "" = z := by
    intro y z tail
    rw [List.getD_append_right pre (pl :: y :: z :: tail) "" (pre.length + 2) (by omega)]
    have h2 : pre.length + 2 - pre.length = 2 := by omega
    rw [h2]
    rfl
  constructor
  · simp only [verify_root_permissions, hfind (cl :: x :: rest), hget0]
    rw [if_neg (by rw [hpl]; decide), if_pos hpl]
    rw [if_neg (by simp only [List.length_append, List.length_cons]; omega)]
    rw [hget1 cl (x :: rest)]
    rw [if_pos ⟨hcl, hcl_ind⟩]
    rw [hget2 cl x rest]
    rw [if_pos ⟨by simp only [List.length_append, List.length_cons]; omega, hx_ne, hx_ind⟩]
  · simp only [verify_root_permissions, hfind (cl :: b :: x :: rest), hget0]
    rw [if_neg (by rw [hpl]; decide), if_pos hpl]
    rw [if_neg (by simp only [List.length_append, List.length_cons]; omega)]
    rw [hget1 cl (b :: x :: rest)]
    rw [if_pos ⟨hcl, hcl_ind⟩]
    rw [hget2 cl b (x :: rest)]
    rw [if_neg (by simp [hb])]

/-- Witness for the amended C7: immediate continuation rejected, blank-line
separated continuation accepted. -/
theorem claim_C7_witness :
    verify_root_permissions
      (some ["permissions:", "  contents: read", "  issues: write"]) = false ∧
    verify_root_permissions
      (some ["permissions:", "  contents: read", "", "  issues: write"]) = true :=
  claim_C7_amended [] [] "permissions:" "  contents: read" "" "  issues: write"
    (by simp) (by decide) (by decide) (by decide) (by decide) (by decide) (by decide)
    (by decide)

/-- C10: whenever the stricter literal-text check accepts, the root
permissions line is exactly `permissions: read-all` or `permissions:`
followed by a two-space indented `contents: read`; in particular a root
declaration `permissions: write-all` is rejected by it even though the
structural classification of the same value is valid-with-warning. -/
theorem claim_C10_strict_check :
    (∀ lines : List String, verify_root_permissions (some lines) = true →
      ∃ p, findRootPermIdx lines 0 = some p ∧
        (pyStrip (lines.getD p "") = "permissions: read-all" ∨
          (pyStrip (lines.getD p "") = "permissions:" ∧
            pyStrip (lines.getD (p + 1) "") = "contents: read" ∧
            pyStartsWith (lines.getD (p + 1) "") "  " = true))) ∧
    verify_root_permissions (some ["permissions: write-all"]) = false ∧
    check_root_permissions [("permissions", YamlValue.vstr "write-all")] none =
      (true, [],
        ["Root-level \x27write-all\x27 permission is overly permissive - consider using \x27read-all\x27 or \x27contents: read\x27"]) := by
  refine ⟨fun lines hv => ?_, by decide, by decide⟩
  simp only [verify_root_permissions] at hv
  cases hf : findRootPermIdx lines 0 with
  | none => simp only [hf] at hv; exact absurd hv (by decide)
  | some p =>
    simp only [hf] at hv
    refine ⟨p, rfl, ?_⟩
    by_cases h1 : pyStrip (lines.getD p "") = "permissions: read-all"
    · exact Or.inl h1
    · rw [if_neg h1] at hv
      by_cases h2 : pyStrip (lines.getD p "") = "permissions:"
      · rw [if_pos h2] at hv
        split_ifs at hv with h3 h4 h5
        exact Or.inr ⟨h2, h4.1, h4.2⟩
      · rw [if_neg h2] at hv
        exact absurd hv (by decide)

/-- Witness for the acceptance characterization of C10. -/
theorem claim_C10_witness :
    ∃ p, findRootPermIdx ["permissions: read-all"] 0 = some p ∧
      (pyStrip ((["permissions: read-all"] : List String).getD p "") = "permissions: read-all" ∨
        (pyStrip ((["permissions: read-all"] : List String).getD p "") = "permissions:" ∧
          pyStrip ((["permissions: read-all"] : List String).getD (p + 1) "") = "contents: read" ∧
          pyStartsWith ((["permissions: read-all"] : List String).getD (p + 1) "") "  " = true)) :=
  claim_C10_strict_check.1 ["permissions: read-all"] (by decide)

end WeaverSpec
